import Mathlib

/-!
Shallow embedding of `src/bot/cogs/services/service.py` from
kyroskoh/StreamNotificationBot: the `Service` poll-and-notify loop, the
subscriber fan-out, subscriber resolution, and the subscription command
helpers.  External collaborators (chat host, store, streaming API) are
modelled as an environment of pure functions; fallible collaborator calls
return `Except Unit` values; effects are recorded as an event trace.
-/

namespace StreamNotificationBot

/-- A streamer record as reconstructed from a database row
(`Streamer.from_database_record`): `db_id`, `service_id`, `channel_name`. -/
structure Streamer where
  db_id : Nat
  service_id : String
  channel_name : String
deriving DecidableEq

/-- Python dict `service_id -> Streamer`, insertion ordered, as an
association list (the code only ever tests key membership and iterates). -/
abbrev OnlineMap := List (String × Streamer)

/-- Key membership `service_id in mapping` on the association list. -/
def hasKey (m : OnlineMap) (sid : String) : Bool :=
  m.any fun p => p.1 == sid

/-- Outcome of `subscriber.send(...)`: success, `discord.Forbidden`,
`discord.HTTPException`, or any other exception — the fan-out catches all
three exception classes (`except ... Exception`). -/
inductive SendOutcome
  | ok
  | forbidden
  | httpError
  | otherError
deriving DecidableEq

/-- Observable collaborator calls made during a poll cycle. -/
inductive Event
  | fanout (serviceId : String)
  | fetchSubscribers (dbId : Nat)
  | lookupChannel (subId : Nat)
  | lookupUser (subId : Nat)
  | scanPrivate (subId : Nat)
  | scanAll (subId : Nat)
  | deleteSubscriber (subId : Nat)
  | sendAttempt (subId : Nat) (serviceId : String) (outcome : SendOutcome)
deriving DecidableEq

/-- The chat host and store as seen by the fan-out.  `fetchSubsRaises` and
`deleteRaises` model the two store calls inside the fan-out that can raise
out of `_notify_subscribers_of_streamer` (its own `try` only wraps
`subscriber.send`). -/
structure Env where
  subscribersOf : Nat → List Nat
  getChannel : Nat → Bool
  getUser : Nat → Bool
  privateChannels : List Nat
  allChannels : List Nat
  fetchSubsRaises : Nat → Bool
  deleteRaises : Nat → Bool

/-! ## `_make_list_embed` (lines 274-285) -/

/-- Result of `_make_list_embed`: either the degraded placeholder embed or
the embed whose description is the rendered link list. -/
inductive ListEmbed
  | placeholder
  | listing (text : String)
deriving DecidableEq

/-- `'\n'.join(f'[<username>](<stream_url(username)>)' for (username,) in streamers)`. -/
def renderLinks (streamUrl : String → String) (streamers : List String) : String :=
  String.intercalate "\n"
    (streamers.map fun u => "[" ++ u ++ "](" ++ streamUrl u ++ ")")

/-- `_make_list_embed`: if the joined link list is over 1024 characters,
return the fixed placeholder embed, else the embed carrying the list. -/
def makeListEmbed (streamUrl : String → String) (streamers : List String) : ListEmbed :=
  let streams := renderLinks streamUrl streamers
  if streams.length > 1024 then ListEmbed.placeholder else ListEmbed.listing streams

/-! ## `_add_subscription` / `_del_subscription` (lines 237-243, 256-261) -/

/-- Python `str.lower()` restricted to the basic-latin range the usernames
use, applied characterwise. -/
def pyLower (s : String) : String :=
  ⟨s.data.map Char.toLower⟩

/-- The store key `(subscriber_id, service, username)` under which a
subscription row is addressed (uniqueness per the store contract). -/
structure SubKey where
  subscriber_id : Nat
  service : String
  username : String
deriving DecidableEq

/-- `_add_subscription` persists `username=streamer.channel_name.lower()`. -/
def addSubscriptionKey (subscriberId : Nat) (service : String) (st : Streamer) : SubKey :=
  ⟨subscriberId, service, pyLower st.channel_name⟩

/-- `_del_subscription` passes `username=streamer_username` unchanged. -/
def delSubscriptionKey (subscriberId : Nat) (service : String) (username : String) : SubKey :=
  ⟨subscriberId, service, username⟩

/-! ## `_enable_command` / `_disable_command` (lines 287-299) -/

/-- `self.disabled_users.add(subscriber.id)`. -/
def disableOp (disabled : Finset Nat) (subId : Nat) : Finset Nat :=
  insert subId disabled

/-- `self.disabled_users.discard(subscriber.id)`. -/
def enableOp (disabled : Finset Nat) (subId : Nat) : Finset Nat :=
  disabled.erase subId

/-! ## `_get_subscriber` (lines 362-383) -/

/-- `_get_subscriber`: resolve a subscriber id by trying, in order,
`bot.get_channel`, `bot.get_user`, a scan of `bot.private_channels`, and a
scan of `bot.get_all_channels()`; if all fail, delete the subscriber from
the database (which may itself raise) and return `None`.  The returned
trace records the calls made, in order. -/
def getSubscriber (env : Env) (subId : Nat) :
    List Event × Except Unit (Option Nat) :=
  if env.getChannel subId then
    ([Event.lookupChannel subId], Except.ok (some subId))
  else if env.getUser subId then
    ([Event.lookupChannel subId, Event.lookupUser subId], Except.ok (some subId))
  else if env.privateChannels.contains subId then
    ([Event.lookupChannel subId, Event.lookupUser subId, Event.scanPrivate subId],
      Except.ok (some subId))
  else if env.allChannels.contains subId then
    ([Event.lookupChannel subId, Event.lookupUser subId, Event.scanPrivate subId,
      Event.scanAll subId], Except.ok (some subId))
  else
    ([Event.lookupChannel subId, Event.lookupUser subId, Event.scanPrivate subId,
      Event.scanAll subId, Event.deleteSubscriber subId],
      if env.deleteRaises subId then Except.error () else Except.ok none)

/-! ## `_notify_subscribers_of_streamer` (lines 341-360) -/

/-- The `for (subscriber_id,) in subscribers` loop of
`_notify_subscribers_of_streamer`: skip disabled ids; resolve the rest; on a
resolved subscriber attempt one send, whose exceptions are all caught; on a
`None` resolution log and continue; an exception from `_get_subscriber`
(store deletion failure) propagates. -/
def notifyLoop (env : Env) (send : Nat → SendOutcome) (disabled : Finset Nat)
    (st : Streamer) : List Nat → List Event × Except Unit Unit
  | [] => ([], Except.ok ())
  | subId :: rest =>
    if subId ∈ disabled then
      notifyLoop env send disabled st rest
    else
      match getSubscriber env subId with
      | (evs, Except.error _) => (evs, Except.error ())
      | (evs, Except.ok none) =>
        let r := notifyLoop env send disabled st rest
        (evs ++ r.1, r.2)
      | (evs, Except.ok (some _)) =>
        let r := notifyLoop env send disabled st rest
        (evs ++ Event.sendAttempt subId st.service_id (send subId) :: r.1, r.2)

/-- `_notify_subscribers_of_streamer`: fetch the subscriber list for the
streamer's `db_id` (a store call that may raise), then run the delivery
loop. -/
def notifyStreamer (env : Env) (send : Nat → SendOutcome) (disabled : Finset Nat)
    (st : Streamer) : List Event × Except Unit Unit :=
  if env.fetchSubsRaises st.db_id then
    ([Event.fetchSubscribers st.db_id], Except.error ())
  else
    let r := notifyLoop env send disabled st (env.subscribersOf st.db_id)
    (Event.fetchSubscribers st.db_id :: r.1, r.2)

/-! ## `_notify_subscribers` (lines 326-339) -/

/-- The `for service_id, streamer in currently_online_streamers.items()`
loop: fan out to every streamer whose `service_id` is not a key of the
cache; an exception from a fan-out aborts the rest of the loop. -/
def processNew (env : Env) (send : Nat → SendOutcome) (disabled : Finset Nat)
    (cache : OnlineMap) : OnlineMap → List Event × Except Unit Unit
  | [] => ([], Except.ok ())
  | (sid, st) :: rest =>
    if hasKey cache sid then
      processNew env send disabled cache rest
    else
      match notifyStreamer env send disabled st with
      | (evs, Except.error _) => (Event.fanout sid :: evs, Except.error ())
      | (evs, Except.ok _) =>
        let r := processNew env send disabled cache rest
        (Event.fanout sid :: (evs ++ r.1), r.2)

/-- One iteration of the `while` body of `_notify_subscribers`, inside its
`try`/`except Exception`: fetch the online mapping (the fetch may raise),
diff against the cache with fan-outs, and only after the whole loop ran
assign `self.live_streamers_cache = currently_online_streamers`; any
exception is caught and logged, leaving the cache untouched.  Returns the
cycle's trace and the cache after the cycle. -/
def cycleBody (env : Env) (send : Nat → SendOutcome) (disabled : Finset Nat)
    (cache : OnlineMap) (fetch : Except Unit OnlineMap) :
    List Event × OnlineMap :=
  match fetch with
  | Except.error _ => ([], cache)
  | Except.ok online =>
    match processNew env send disabled cache online with
    | (evs, Except.ok _) => (evs, online)
    | (evs, Except.error _) => (evs, cache)

/-- The `while not self.bot.is_closed()` loop: one `cycleBody` per cycle,
sleeping in between; the list of fetch results stands for the successive
cycles until the host shuts down (end of list).  Returns the final cache
and one trace per cycle. -/
def pollLoop (env : Env) (send : Nat → SendOutcome) (disabled : Finset Nat)
    (cache : OnlineMap) : List (Except Unit OnlineMap) → OnlineMap × List (List Event)
  | [] => (cache, [])
  | fetch :: rest =>
    let c := cycleBody env send disabled cache fetch
    let r := pollLoop env send disabled c.2 rest
    (r.1, c.1 :: r.2)

/-! ## Trace observations -/

/-- The `service_id`s for which a notification fan-out was triggered. -/
def fanouts (evs : List Event) : List String :=
  evs.filterMap fun e =>
    match e with
    | Event.fanout sid => some sid
    | _ => none

/-- The subscriber ids to which a delivery was attempted. -/
def attemptIds (evs : List Event) : List Nat :=
  evs.filterMap fun e =>
    match e with
    | Event.sendAttempt i _ _ => some i
    | _ => none

/-- Does the event attempt a delivery to this subscriber id? -/
def isSendTo (subId : Nat) : Event → Bool
  | Event.sendAttempt i _ _ => i == subId
  | _ => false

/-- Does the event delete this subscriber id from the store? -/
def isDeleteOf (subId : Nat) : Event → Bool
  | Event.deleteSubscriber i => i == subId
  | _ => false

/-- Does the event concern this subscriber id at all (resolution lookup,
store deletion, or delivery attempt)? -/
def touchesSubscriber (subId : Nat) : Event → Bool
  | Event.lookupChannel i => i == subId
  | Event.lookupUser i => i == subId
  | Event.scanPrivate i => i == subId
  | Event.scanAll i => i == subId
  | Event.deleteSubscriber i => i == subId
  | Event.sendAttempt i _ _ => i == subId
  | _ => false

/-- Can this subscriber id be resolved by one of the four lookups of
`_get_subscriber`? -/
def resolvable (env : Env) (subId : Nat) : Bool :=
  env.getChannel subId || env.getUser subId ||
    env.privateChannels.contains subId || env.allChannels.contains subId

/-- The store calls of the fan-out never raise: `get_subscribers_from_streamer`
and `delete_subscriber` both succeed. -/
def NoRaise (env : Env) : Prop :=
  (∀ d, env.fetchSubsRaises d = false) ∧ (∀ i, env.deleteRaises i = false)

/-! ## Concrete fixtures, used to evaluate the theorems on concrete inputs -/

/-- A delivery that always succeeds. -/
def sendOk : Nat → SendOutcome := fun _ => SendOutcome.ok

/-- A delivery that fails with a permission error for subscriber 6 and
succeeds for everyone else. -/
def sendFail6 : Nat → SendOutcome :=
  fun i => if i == 6 then SendOutcome.forbidden else SendOutcome.ok

/-- A streamer reconstructed from a database record. -/
def streamerA : Streamer := ⟨1, "a", "alice"⟩

/-- Host where streamers have subscribers 6 and 7, every id resolves as a
channel, and the store never raises. -/
def envResolve : Env :=
  ⟨fun _ => [6, 7], fun _ => true, fun _ => false, [], [], fun _ => false, fun _ => false⟩

/-- Host where streamers have one subscriber, 9, whom no lookup resolves,
and the store never raises. -/
def envStale : Env :=
  ⟨fun _ => [9], fun _ => false, fun _ => false, [], [], fun _ => false, fun _ => false⟩

/-- Host whose subscriber-list fetch raises on every streamer. -/
def envFetchRaise : Env :=
  ⟨fun _ => [], fun _ => false, fun _ => false, [], [], fun _ => true, fun _ => false⟩

/-! ## Helper lemmas -/

theorem char_ofNat_toNat_valid (n : Nat) (h : n.isValidChar) : (Char.ofNat n).toNat = n := by
  rw [Char.ofNat, dif_pos h]
  rfl

theorem toLower_ne_of_isUpper (c : Char) (h : c.isUpper = true) : c.toLower ≠ c := by
  have hb : 65 ≤ c.toNat ∧ c.toNat ≤ 90 := by
    simpa [Char.isUpper] using h
  intro heq
  have hcond : c.toNat ≥ 65 ∧ c.toNat ≤ 90 := ⟨hb.1, hb.2⟩
  have hlow : c.toLower = Char.ofNat (c.toNat + 32) := by
    unfold Char.toLower
    rw [if_pos hcond]
  have hv : (c.toNat + 32).isValidChar := Or.inl (by omega)
  have h2 : (Char.ofNat (c.toNat + 32)).toNat = c.toNat + 32 := char_ofNat_toNat_valid _ hv
  rw [← hlow, heq] at h2
  omega

theorem map_toLower_ne (l : List Char) (c : Char) (hc : c ∈ l) (hu : c.isUpper = true) :
    l.map Char.toLower ≠ l := by
  induction l with
  | nil => cases hc
  | cons a t ih =>
    intro heq
    rw [List.map_cons] at heq
    injection heq with h1 h2
    rcases List.mem_cons.mp hc with rfl | hmem
    · exact toLower_ne_of_isUpper c hu h1
    · exact ih hmem h2

theorem pyLower_ne_of_mem_isUpper (s : String) (c : Char) (hc : c ∈ s.data)
    (hu : c.isUpper = true) : pyLower s ≠ s := by
  intro heq
  have hdata : s.data.map Char.toLower = s.data := congrArg String.data heq
  exact map_toLower_ne s.data c hc hu hdata

/-! ## Claim theorems on the subscription command helpers -/

/-- C7: the rendered list embed never carries a link list over 1024
characters: when the joined link list exceeds 1024 characters the fixed
placeholder embed is returned instead, otherwise the embed carries the full
joined link list (hence any listing embed's text is within budget and
untruncated). -/
theorem list_embed_budget (streamUrl : String → String) (streamers : List String) :
    ((renderLinks streamUrl streamers).length > 1024 →
      makeListEmbed streamUrl streamers = ListEmbed.placeholder) ∧
    ((renderLinks streamUrl streamers).length ≤ 1024 →
      makeListEmbed streamUrl streamers = ListEmbed.listing (renderLinks streamUrl streamers)) ∧
    (∀ t, makeListEmbed streamUrl streamers = ListEmbed.listing t →
      t.length ≤ 1024 ∧ t = renderLinks streamUrl streamers) := by
  unfold makeListEmbed
  by_cases h : (renderLinks streamUrl streamers).length > 1024
  · rw [if_pos h]
    refine ⟨fun _ => rfl, fun h' => absurd h' (by omega), fun t ht => by cases ht⟩
  · rw [if_neg h]
    refine ⟨fun h' => absurd h' h, fun _ => rfl, fun t ht => ?_⟩
    injection ht with h1
    exact ⟨h1 ▸ by omega, h1.symm⟩

/-- C8: `_add_subscription` persists the streamer's channel name
lowercased while `_del_subscription` passes the given username unchanged,
so when the username (as the API echoes it back in `channel_name`) contains
an uppercase basic-latin letter, a subscribe followed by an unsubscribe
with the same username address different store keys. -/
theorem subscribe_unsubscribe_key_mismatch (subscriberId : Nat) (service username : String)
    (st : Streamer) (hname : st.channel_name = username)
    (hup : ∃ c ∈ username.data, c.isUpper = true) :
    addSubscriptionKey subscriberId service st ≠ delSubscriptionKey subscriberId service username := by
  obtain ⟨c, hc, hu⟩ := hup
  intro heq
  have husername : pyLower username = username := by
    have := congrArg SubKey.username heq
    simpa [addSubscriptionKey, delSubscriptionKey, hname] using this
  exact pyLower_ne_of_mem_isUpper username c hc hu husername

theorem subscribe_unsubscribe_key_mismatch_witness :
    addSubscriptionKey 7 "picarto" ⟨3, "42", "StreamerGuy"⟩ ≠
      delSubscriptionKey 7 "picarto" "StreamerGuy" :=
  subscribe_unsubscribe_key_mismatch 7 "picarto" "StreamerGuy" ⟨3, "42", "StreamerGuy"⟩ rfl
    ⟨'S', by decide, by decide⟩

/-- C9: enable and disable are idempotent set operations, not toggles —
disable yields the disabled set with the id inserted, enable yields it with
the id removed, each applied twice equals applied once, and both are total
whatever the prior state of the id. -/
theorem enable_disable_idempotent (s : Finset Nat) (subId : Nat) :
    subId ∈ disableOp s subId ∧
    subId ∉ enableOp s subId ∧
    disableOp (disableOp s subId) subId = disableOp s subId ∧
    enableOp (enableOp s subId) subId = enableOp s subId ∧
    (∀ x, x ∈ disableOp s subId ↔ x = subId ∨ x ∈ s) ∧
    (∀ x, x ∈ enableOp s subId ↔ x ≠ subId ∧ x ∈ s) := by
  refine ⟨?_, ?_, ?_, ?_, fun x => ?_, fun x => ?_⟩ <;>
    simp [disableOp, enableOp, Finset.insert_idem, Finset.erase_idem]

/-! ## Lemmas on the poll-and-notify model -/

theorem getSubscriber_touches (env : Env) (i j : Nat) :
    ∀ e ∈ (getSubscriber env i).1, touchesSubscriber j e = (i == j) := by
  intro e he
  unfold getSubscriber at he
  split at he <;>
    [skip; split at he] <;>
    [skip; skip; split at he] <;>
    [skip; skip; skip; split at he] <;>
    simp at he <;>
    rcases he with rfl | rfl | rfl | rfl | rfl <;>
    rfl

theorem getSubscriber_pos (env : Env) (i : Nat) (h : resolvable env i = true) :
    (getSubscriber env i).2 = Except.ok (some i) := by
  unfold getSubscriber
  unfold resolvable at h
  split
  · rfl
  · split
    · rfl
    · split
      · rfl
      · split
        · rfl
        · simp_all

theorem getSubscriber_neg (env : Env) (i : Nat) (h : resolvable env i = false) :
    getSubscriber env i =
      ([Event.lookupChannel i, Event.lookupUser i, Event.scanPrivate i,
        Event.scanAll i, Event.deleteSubscriber i],
        if env.deleteRaises i then Except.error () else Except.ok none) := by
  unfold getSubscriber
  unfold resolvable at h
  simp only [Bool.or_eq_false_iff] at h
  rw [if_neg, if_neg, if_neg, if_neg] <;> simp_all

theorem attemptIds_getSubscriber (env : Env) (i : Nat) :
    attemptIds (getSubscriber env i).1 = [] := by
  unfold getSubscriber
  split <;> [skip; split] <;> [skip; skip; split] <;> [skip; skip; skip; split] <;> rfl

theorem fanouts_getSubscriber (env : Env) (i : Nat) :
    fanouts (getSubscriber env i).1 = [] := by
  unfold getSubscriber
  split <;> [skip; split] <;> [skip; skip; split] <;> [skip; skip; skip; split] <;> rfl

theorem getSubscriber_snd_ok (env : Env) (i : Nat) (h : env.deleteRaises i = false) :
    ∃ o, (getSubscriber env i).2 = Except.ok o := by
  by_cases hres : resolvable env i = true
  · exact ⟨some i, getSubscriber_pos env i hres⟩
  · refine ⟨none, ?_⟩
    rw [getSubscriber_neg env i (by simpa using hres)]
    simp [h]

theorem notifyLoop_touches (env : Env) (send : Nat → SendOutcome) (disabled : Finset Nat)
    (st : Streamer) (j : Nat) (hj : j ∈ disabled) (subs : List Nat) :
    ∀ e ∈ (notifyLoop env send disabled st subs).1, touchesSubscriber j e = false := by
  induction subs with
  | nil =>
    intro e he
    simp [notifyLoop] at he
  | cons i rest ih =>
    intro e he
    rw [notifyLoop] at he
    by_cases hd : i ∈ disabled
    · rw [if_pos hd] at he
      exact ih e he
    · rw [if_neg hd] at he
      have hne : i ≠ j := fun h => hd (h ▸ hj)
      have hneb : (i == j) = false := by simp [hne]
      rcases hg : getSubscriber env i with ⟨evs, r⟩
      rw [hg] at he
      have htouch : ∀ e' ∈ evs, touchesSubscriber j e' = false := by
        intro e' he'
        have h2 := getSubscriber_touches env i j e' (by rw [hg]; exact he')
        rw [hneb] at h2
        exact h2
      cases r with
      | error u => exact htouch e he
      | ok o =>
        cases o with
        | none =>
          simp only [List.mem_append] at he
          rcases he with h1 | h2
          · exact htouch e h1
          · exact ih e h2
        | some v =>
          simp only [List.mem_append, List.mem_cons] at he
          rcases he with h1 | rfl | h2
          · exact htouch e h1
          · simpa [touchesSubscriber] using hneb
          · exact ih e h2

theorem notifyLoop_snd_send (env : Env) (send send' : Nat → SendOutcome)
    (disabled : Finset Nat) (st : Streamer) (subs : List Nat) :
    (notifyLoop env send disabled st subs).2 = (notifyLoop env send' disabled st subs).2 := by
  induction subs with
  | nil => rfl
  | cons i rest ih =>
    rw [notifyLoop, notifyLoop]
    by_cases hd : i ∈ disabled
    · rw [if_pos hd, if_pos hd]
      exact ih
    · rw [if_neg hd, if_neg hd]
      rcases hg : getSubscriber env i with ⟨evs, r⟩
      cases r with
      | error u => rfl
      | ok o => cases o <;> exact ih

theorem notifyLoop_attempts_send (env : Env) (send send' : Nat → SendOutcome)
    (disabled : Finset Nat) (st : Streamer) (subs : List Nat) :
    attemptIds (notifyLoop env send disabled st subs).1 =
      attemptIds (notifyLoop env send' disabled st subs).1 := by
  induction subs with
  | nil => rfl
  | cons i rest ih =>
    rw [notifyLoop, notifyLoop]
    by_cases hd : i ∈ disabled
    · rw [if_pos hd, if_pos hd]
      exact ih
    · rw [if_neg hd, if_neg hd]
      rcases hg : getSubscriber env i with ⟨evs, r⟩
      cases r with
      | error u => rfl
      | ok o =>
        cases o with
        | none =>
          simp only [attemptIds, List.filterMap_append] at ih ⊢
          rw [ih]
        | some v =>
          simp only [attemptIds, List.filterMap_append, List.filterMap_cons] at ih ⊢
          rw [ih]

theorem notifyLoop_snd_ok (env : Env) (send : Nat → SendOutcome) (disabled : Finset Nat)
    (st : Streamer) (hdel : ∀ i, env.deleteRaises i = false) (subs : List Nat) :
    (notifyLoop env send disabled st subs).2 = Except.ok () := by
  induction subs with
  | nil => rfl
  | cons i rest ih =>
    rw [notifyLoop]
    by_cases hd : i ∈ disabled
    · rw [if_pos hd]
      exact ih
    · rw [if_neg hd]
      rcases hg : getSubscriber env i with ⟨evs, r⟩
      obtain ⟨o, ho⟩ := getSubscriber_snd_ok env i (hdel i)
      rw [hg] at ho
      simp only at ho
      subst ho
      cases o <;> exact ih

theorem fanouts_notifyLoop (env : Env) (send : Nat → SendOutcome) (disabled : Finset Nat)
    (st : Streamer) (subs : List Nat) :
    fanouts (notifyLoop env send disabled st subs).1 = [] := by
  induction subs with
  | nil => rfl
  | cons i rest ih =>
    rw [notifyLoop]
    by_cases hd : i ∈ disabled
    · rw [if_pos hd]
      exact ih
    · rw [if_neg hd]
      rcases hg : getSubscriber env i with ⟨evs, r⟩
      have hevs : fanouts evs = [] := by
        have := fanouts_getSubscriber env i
        rw [hg] at this
        exact this
      cases r with
      | error u => exact hevs
      | ok o =>
        cases o with
        | none =>
          simp only [fanouts, List.filterMap_append] at hevs ih ⊢
          rw [hevs, ih]
          rfl
        | some v =>
          simp only [fanouts, List.filterMap_append, List.filterMap_cons] at hevs ih ⊢
          rw [hevs, ih]
          rfl

theorem notifyLoop_attempts (env : Env) (send : Nat → SendOutcome) (disabled : Finset Nat)
    (st : Streamer) (hdel : ∀ i, env.deleteRaises i = false) (subs : List Nat) :
    attemptIds (notifyLoop env send disabled st subs).1 =
      subs.filter fun i => !decide (i ∈ disabled) && resolvable env i := by
  induction subs with
  | nil => rfl
  | cons i rest ih =>
    rw [notifyLoop, List.filter_cons]
    by_cases hd : i ∈ disabled
    · rw [if_pos hd]
      have hcond : (!decide (i ∈ disabled) && resolvable env i) = false := by
        simp [hd]
      rw [hcond]
      simpa using ih
    · rw [if_neg hd]
      by_cases hres : resolvable env i = true
      · rcases hg : getSubscriber env i with ⟨evs, r⟩
        have ho := getSubscriber_pos env i hres
        rw [hg] at ho
        simp only at ho
        subst ho
        have hevs : attemptIds evs = [] := by
          have := attemptIds_getSubscriber env i
          rw [hg] at this
          exact this
        have hcond : (!decide (i ∈ disabled) && resolvable env i) = true := by
          simp [hd, hres]
        rw [hcond]
        simp only [attemptIds, List.filterMap_append, List.filterMap_cons] at hevs ih ⊢
        rw [hevs, ih]
        rfl
      · have hresf : resolvable env i = false := by simpa using hres
        rw [getSubscriber_neg env i hresf]
        rw [if_neg (by simp [hdel i] : ¬ env.deleteRaises i = true)]
        have hcond : (!decide (i ∈ disabled) && resolvable env i) = false := by
          simp [hresf]
        rw [hcond]
        simp only [attemptIds, List.filterMap_append] at ih ⊢
        rw [ih]
        rfl

theorem notifyStreamer_touches (env : Env) (send : Nat → SendOutcome) (disabled : Finset Nat)
    (st : Streamer) (j : Nat) (hj : j ∈ disabled) :
    ∀ e ∈ (notifyStreamer env send disabled st).1, touchesSubscriber j e = false := by
  intro e he
  unfold notifyStreamer at he
  split at he
  · simp only [List.mem_singleton] at he
    subst he
    rfl
  · simp only [List.mem_cons] at he
    rcases he with rfl | he
    · rfl
    · exact notifyLoop_touches env send disabled st j hj _ e he

theorem notifyStreamer_snd_ok (env : Env) (send : Nat → SendOutcome) (disabled : Finset Nat)
    (st : Streamer) (hNR : NoRaise env) :
    (notifyStreamer env send disabled st).2 = Except.ok () := by
  unfold notifyStreamer
  rw [if_neg (by simp [hNR.1 st.db_id])]
  exact notifyLoop_snd_ok env send disabled st hNR.2 _

theorem fanouts_notifyStreamer (env : Env) (send : Nat → SendOutcome) (disabled : Finset Nat)
    (st : Streamer) :
    fanouts (notifyStreamer env send disabled st).1 = [] := by
  unfold notifyStreamer
  split
  · rfl
  · simp only [fanouts, List.filterMap_cons]
    exact fanouts_notifyLoop env send disabled st _

theorem attemptIds_notifyStreamer (env : Env) (send : Nat → SendOutcome) (disabled : Finset Nat)
    (st : Streamer) (hNR : NoRaise env) :
    attemptIds (notifyStreamer env send disabled st).1 =
      (env.subscribersOf st.db_id).filter fun i => !decide (i ∈ disabled) && resolvable env i := by
  unfold notifyStreamer
  rw [if_neg (by simp [hNR.1 st.db_id])]
  simp only [attemptIds, List.filterMap_cons]
  exact notifyLoop_attempts env send disabled st hNR.2 _

theorem notifyStreamer_snd_send (env : Env) (send send' : Nat → SendOutcome)
    (disabled : Finset Nat) (st : Streamer) :
    (notifyStreamer env send disabled st).2 = (notifyStreamer env send' disabled st).2 := by
  unfold notifyStreamer
  split
  · rfl
  · exact notifyLoop_snd_send env send send' disabled st _

theorem attemptIds_notifyStreamer_send (env : Env) (send send' : Nat → SendOutcome)
    (disabled : Finset Nat) (st : Streamer) :
    attemptIds (notifyStreamer env send disabled st).1 =
      attemptIds (notifyStreamer env send' disabled st).1 := by
  unfold notifyStreamer
  split
  · rfl
  · simp only [attemptIds, List.filterMap_cons]
    exact notifyLoop_attempts_send env send send' disabled st _

theorem processNew_snd_ok (env : Env) (send : Nat → SendOutcome) (disabled : Finset Nat)
    (cache : OnlineMap) (hNR : NoRaise env) (online : OnlineMap) :
    (processNew env send disabled cache online).2 = Except.ok () := by
  induction online with
  | nil => rfl
  | cons p rest ih =>
    rcases p with ⟨sid, st⟩
    rw [processNew]
    by_cases hk : hasKey cache sid
    · rw [if_pos hk]
      exact ih
    · rw [if_neg hk]
      rcases hn : notifyStreamer env send disabled st with ⟨evs, r⟩
      have hok := notifyStreamer_snd_ok env send disabled st hNR
      rw [hn] at hok
      simp only at hok
      subst hok
      exact ih

theorem fanouts_processNew (env : Env) (send : Nat → SendOutcome) (disabled : Finset Nat)
    (cache : OnlineMap) (hNR : NoRaise env) (online : OnlineMap) :
    fanouts (processNew env send disabled cache online).1 =
      (online.filter fun p => !hasKey cache p.1).map Prod.fst := by
  induction online with
  | nil => rfl
  | cons p rest ih =>
    rcases p with ⟨sid, st⟩
    rw [processNew, List.filter_cons]
    by_cases hk : hasKey cache sid
    · rw [if_pos hk]
      have : (!hasKey cache (sid, st).1) = false := by simp [hk]
      rw [this]
      simpa using ih
    · rw [if_neg hk]
      rcases hn : notifyStreamer env send disabled st with ⟨evs, r⟩
      have hok := notifyStreamer_snd_ok env send disabled st hNR
      rw [hn] at hok
      simp only at hok
      subst hok
      have hevs : fanouts evs = [] := by
        have := fanouts_notifyStreamer env send disabled st
        rw [hn] at this
        exact this
      have : (!hasKey cache (sid, st).1) = true := by simp [hk]
      rw [this]
      simp only [fanouts, List.filterMap_cons, List.filterMap_append] at hevs ih ⊢
      rw [hevs, ih]
      rfl

theorem processNew_touches (env : Env) (send : Nat → SendOutcome) (disabled : Finset Nat)
    (cache : OnlineMap) (j : Nat) (hj : j ∈ disabled) (online : OnlineMap) :
    ∀ e ∈ (processNew env send disabled cache online).1, touchesSubscriber j e = false := by
  induction online with
  | nil =>
    intro e he
    simp [processNew] at he
  | cons p rest ih =>
    rcases p with ⟨sid, st⟩
    intro e he
    rw [processNew] at he
    by_cases hk : hasKey cache sid
    · rw [if_pos hk] at he
      exact ih e he
    · rw [if_neg hk] at he
      rcases hn : notifyStreamer env send disabled st with ⟨evs, r⟩
      rw [hn] at he
      have hevs : ∀ e' ∈ evs, touchesSubscriber j e' = false := by
        intro e' he'
        exact notifyStreamer_touches env send disabled st j hj e' (by rw [hn]; exact he')
      cases r with
      | error u =>
        simp only [List.mem_cons] at he
        rcases he with rfl | he
        · rfl
        · exact hevs e he
      | ok u =>
        simp only [List.mem_cons, List.mem_append] at he
        rcases he with rfl | he | he
        · rfl
        · exact hevs e he
        · exact ih e he

theorem processNew_snd_send (env : Env) (send send' : Nat → SendOutcome)
    (disabled : Finset Nat) (cache : OnlineMap) (online : OnlineMap) :
    (processNew env send disabled cache online).2 =
      (processNew env send' disabled cache online).2 := by
  induction online with
  | nil => rfl
  | cons p rest ih =>
    rcases p with ⟨sid, st⟩
    rw [processNew, processNew]
    by_cases hk : hasKey cache sid
    · rw [if_pos hk, if_pos hk]
      exact ih
    · rw [if_neg hk, if_neg hk]
      rcases hn : notifyStreamer env send disabled st with ⟨evs, r⟩
      rcases hn' : notifyStreamer env send' disabled st with ⟨evs', r'⟩
      have hsnd := notifyStreamer_snd_send env send send' disabled st
      rw [hn, hn'] at hsnd
      simp only at hsnd
      subst hsnd
      cases r with
      | error u => rfl
      | ok u => exact ih

theorem cycleBody_error_def (env : Env) (send : Nat → SendOutcome) (disabled : Finset Nat)
    (cache : OnlineMap) (u : Unit) :
    cycleBody env send disabled cache (Except.error u) = ([], cache) := rfl

theorem cycleBody_ok_def (env : Env) (send : Nat → SendOutcome) (disabled : Finset Nat)
    (cache : OnlineMap) (online : OnlineMap) :
    cycleBody env send disabled cache (Except.ok online) =
      (match processNew env send disabled cache online with
        | (evs, Except.ok _) => (evs, online)
        | (evs, Except.error _) => (evs, cache)) := rfl

theorem cycleBody_cache_ok (env : Env) (send : Nat → SendOutcome) (disabled : Finset Nat)
    (cache : OnlineMap) (hNR : NoRaise env) (online : OnlineMap) :
    (cycleBody env send disabled cache (Except.ok online)).2 = online := by
  rcases hp : processNew env send disabled cache online with ⟨evs, r⟩
  have hok := processNew_snd_ok env send disabled cache hNR online
  rw [hp] at hok
  simp only at hok
  subst hok
  rw [cycleBody_ok_def, hp]

theorem fanouts_cycleBody (env : Env) (send : Nat → SendOutcome) (disabled : Finset Nat)
    (cache : OnlineMap) (online : OnlineMap) :
    fanouts (cycleBody env send disabled cache (Except.ok online)).1 =
      fanouts (processNew env send disabled cache online).1 := by
  rcases hp : processNew env send disabled cache online with ⟨evs, r⟩
  rw [cycleBody_ok_def, hp]
  cases r <;> rfl

theorem cycleBody_touches (env : Env) (send : Nat → SendOutcome) (disabled : Finset Nat)
    (cache : OnlineMap) (j : Nat) (hj : j ∈ disabled) (fetch : Except Unit OnlineMap) :
    ∀ e ∈ (cycleBody env send disabled cache fetch).1, touchesSubscriber j e = false := by
  intro e he
  cases fetch with
  | error u =>
    rw [cycleBody_error_def] at he
    simp at he
  | ok online =>
    rcases hp : processNew env send disabled cache online with ⟨evs, r⟩
    rw [cycleBody_ok_def, hp] at he
    have hevs : ∀ e' ∈ evs, touchesSubscriber j e' = false := by
      intro e' he'
      exact processNew_touches env send disabled cache j hj online e' (by rw [hp]; exact he')
    cases r <;> exact hevs e he

theorem cycleBody_cache_send (env : Env) (send send' : Nat → SendOutcome)
    (disabled : Finset Nat) (cache : OnlineMap) (fetch : Except Unit OnlineMap) :
    (cycleBody env send disabled cache fetch).2 =
      (cycleBody env send' disabled cache fetch).2 := by
  cases fetch with
  | error u => rfl
  | ok online =>
    rcases hp : processNew env send disabled cache online with ⟨evs, r⟩
    rcases hp' : processNew env send' disabled cache online with ⟨evs', r'⟩
    have hsnd := processNew_snd_send env send send' disabled cache online
    rw [hp, hp'] at hsnd
    simp only at hsnd
    subst hsnd
    rw [cycleBody_ok_def, cycleBody_ok_def, hp, hp']
    cases r <;> rfl

theorem pollLoop_length (env : Env) (send : Nat → SendOutcome) (disabled : Finset Nat)
    (cache : OnlineMap) (fetches : List (Except Unit OnlineMap)) :
    (pollLoop env send disabled cache fetches).2.length = fetches.length := by
  induction fetches generalizing cache with
  | nil => rfl
  | cons fetch rest ih =>
    rw [pollLoop]
    simp only [List.length_cons]
    rw [ih]

theorem pollLoop_touches (env : Env) (send : Nat → SendOutcome) (disabled : Finset Nat)
    (cache : OnlineMap) (j : Nat) (hj : j ∈ disabled)
    (fetches : List (Except Unit OnlineMap)) :
    ∀ log ∈ (pollLoop env send disabled cache fetches).2, ∀ e ∈ log,
      touchesSubscriber j e = false := by
  induction fetches generalizing cache with
  | nil =>
    intro log hlog
    simp [pollLoop] at hlog
  | cons fetch rest ih =>
    intro log hlog
    rw [pollLoop] at hlog
    simp only [List.mem_cons] at hlog
    rcases hlog with rfl | hlog
    · exact cycleBody_touches env send disabled cache j hj fetch
    · exact ih _ log hlog

theorem pollLoop_cache_send (env : Env) (send send' : Nat → SendOutcome)
    (disabled : Finset Nat) (cache : OnlineMap) (fetches : List (Except Unit OnlineMap)) :
    (pollLoop env send disabled cache fetches).1 =
      (pollLoop env send' disabled cache fetches).1 := by
  induction fetches generalizing cache with
  | nil => rfl
  | cons fetch rest ih =>
    rw [pollLoop, pollLoop]
    simp only
    rw [cycleBody_cache_send env send send' disabled cache fetch]
    exact ih _

theorem hasKey_iff (m : OnlineMap) (sid : String) :
    hasKey m sid = true ↔ ∃ p ∈ m, p.1 = sid := by
  simp [hasKey, List.any_eq_true]

/-! ## Claim theorems on the poll-and-notify loop -/

/-- C1: notifications are edge-triggered on the cycle diff.  In a cycle
whose fan-outs raise no store exception: the fan-outs triggered are exactly
the streamers of the new mapping whose key is absent from the cache, in
order; a newly-live streamer of a duplicate-free mapping (a Python dict) is
fanned out exactly once in the cycle; a streamer present in both
consecutive cycles triggers none; and a streamer absent from one mapping
and present in the following one is fanned out afresh in that following
cycle. -/
theorem edge_triggered_fanout (env : Env) (send : Nat → SendOutcome)
    (disabled : Finset Nat) (cache online₁ online₂ : OnlineMap)
    (hNR : NoRaise env) (hnd : (online₁.map Prod.fst).Nodup) :
    (fanouts (cycleBody env send disabled cache (Except.ok online₁)).1 =
      (online₁.filter fun p => !hasKey cache p.1).map Prod.fst) ∧
    (∀ sid, hasKey cache sid = false → hasKey online₁ sid = true →
      (fanouts (cycleBody env send disabled cache (Except.ok online₁)).1).count sid = 1) ∧
    (∀ sid, hasKey cache sid = true →
      sid ∉ fanouts (cycleBody env send disabled cache (Except.ok online₁)).1) ∧
    (∀ sid, hasKey online₁ sid = false → hasKey online₂ sid = true →
      sid ∈ fanouts (cycleBody env send disabled
        (cycleBody env send disabled cache (Except.ok online₁)).2 (Except.ok online₂)).1) := by
  have hmain : fanouts (cycleBody env send disabled cache (Except.ok online₁)).1 =
      (online₁.filter fun p => !hasKey cache p.1).map Prod.fst := by
    rw [fanouts_cycleBody]
    exact fanouts_processNew env send disabled cache hNR online₁
  refine ⟨hmain, ?_, ?_, ?_⟩
  · intro sid hc ho
    rw [hmain]
    have hmem : sid ∈ (online₁.filter fun p => !hasKey cache p.1).map Prod.fst := by
      obtain ⟨p, hp, hps⟩ := (hasKey_iff online₁ sid).mp ho
      refine List.mem_map.mpr ⟨p, List.mem_filter.mpr ⟨hp, ?_⟩, hps⟩
      rw [hps, hc]
      rfl
    have hsub : List.Sublist ((online₁.filter fun p => !hasKey cache p.1).map Prod.fst)
        (online₁.map Prod.fst) := (List.filter_sublist online₁).map Prod.fst
    exact List.count_eq_one_of_mem (hnd.sublist hsub) hmem
  · intro sid hc hmem
    rw [hmain] at hmem
    obtain ⟨p, hp, hps⟩ := List.mem_map.mp hmem
    have hflt := (List.mem_filter.mp hp).2
    rw [hps, hc] at hflt
    simp at hflt
  · intro sid h1 h2
    have hcache : (cycleBody env send disabled cache (Except.ok online₁)).2 = online₁ :=
      cycleBody_cache_ok env send disabled cache hNR online₁
    rw [hcache, fanouts_cycleBody,
      fanouts_processNew env send disabled online₁ hNR online₂]
    obtain ⟨p, hp, hps⟩ := (hasKey_iff online₂ sid).mp h2
    refine List.mem_map.mpr ⟨p, List.mem_filter.mpr ⟨hp, ?_⟩, hps⟩
    rw [hps, h1]
    rfl

theorem edge_triggered_fanout_witness :
    NoRaise envResolve ∧
      fanouts (cycleBody envResolve sendOk ∅ [] (Except.ok [("a", streamerA)])).1 = ["a"] := by
  refine ⟨⟨fun _ => rfl, fun _ => rfl⟩, ?_⟩
  rw [(edge_triggered_fanout envResolve sendOk ∅ [] [("a", streamerA)] []
    ⟨fun _ => rfl, fun _ => rfl⟩ (by decide)).1]
  decide

/-- C2 counterexample: with a store whose subscriber-list fetch raises, a
cycle holding one newly-live streamer does not replace the cache with the
fetched mapping — the exception is caught and the cache keeps its previous
(here empty) value, refuting the unconditional-replacement claim. -/
theorem cache_replaced_unconditionally_counterexample :
    (cycleBody envFetchRaise sendOk ∅ [] (Except.ok [("a", streamerA)])).2 ≠
      [("a", streamerA)] := by
  decide

/-- C2 as amended: the cache is replaced with the fetched mapping exactly
when the fetch and the whole diff-and-fan-out pass complete without an
exception; when the fetch or any fan-out raises, the caught exception
leaves the cache at its previous value.  With a store that never raises
the replacement is unconditional. -/
theorem cache_replacement_conditional (env : Env) (send : Nat → SendOutcome)
    (disabled : Finset Nat) (cache : OnlineMap) :
    (∀ u, (cycleBody env send disabled cache (Except.error u)).2 = cache) ∧
    (∀ online, (processNew env send disabled cache online).2 = Except.ok () →
      (cycleBody env send disabled cache (Except.ok online)).2 = online) ∧
    (∀ online u, (processNew env send disabled cache online).2 = Except.error u →
      (cycleBody env send disabled cache (Except.ok online)).2 = cache) ∧
    (NoRaise env → ∀ online,
      (cycleBody env send disabled cache (Except.ok online)).2 = online) := by
  refine ⟨fun u => rfl, ?_, ?_,
    fun hNR online => cycleBody_cache_ok env send disabled cache hNR online⟩
  · intro online hok
    rcases hp : processNew env send disabled cache online with ⟨evs, r⟩
    rw [hp] at hok
    simp only at hok
    subst hok
    rw [cycleBody_ok_def, hp]
  · intro online u herr
    rcases hp : processNew env send disabled cache online with ⟨evs, r⟩
    rw [hp] at herr
    simp only at herr
    subst herr
    rw [cycleBody_ok_def, hp]

/-- C3: a subscriber id in the disabled set receives no delivery attempt in
any fan-out of any cycle of the poll loop while the set holds the id,
whatever its subscription count. -/
theorem disabled_never_sent (env : Env) (send : Nat → SendOutcome)
    (disabled : Finset Nat) (cache : OnlineMap)
    (fetches : List (Except Unit OnlineMap)) (subId : Nat)
    (hdis : subId ∈ disabled) :
    ∀ log ∈ (pollLoop env send disabled cache fetches).2, ∀ e ∈ log,
      isSendTo subId e = false := by
  intro log hlog e he
  have ht := pollLoop_touches env send disabled cache subId hdis fetches log hlog e he
  cases e <;> simp_all [isSendTo, touchesSubscriber]

theorem disabled_never_sent_witness :
    (6 : Nat) ∈ ({6} : Finset Nat) ∧
      isSendTo 6 (Event.sendAttempt 7 "a" SendOutcome.ok) = false := by
  refine ⟨by decide, ?_⟩
  exact disabled_never_sent envResolve sendOk {6} [] [Except.ok [("a", streamerA)]] 6
    (by decide)
    [Event.fanout "a", Event.fetchSubscribers 1, Event.lookupChannel 7,
      Event.sendAttempt 7 "a" SendOutcome.ok]
    (by decide) (Event.sendAttempt 7 "a" SendOutcome.ok) (by decide)

/-- C4: the poll loop is total per cycle — every cycle, whatever exception
its fetch or fan-out raised inside the guarded body, produces exactly one
log entry and the loop goes on to the remaining cycles, terminating only
when shutdown ends the cycle list. -/
theorem poll_loop_runs_every_cycle (env : Env) (send : Nat → SendOutcome)
    (disabled : Finset Nat) (cache : OnlineMap)
    (fetches : List (Except Unit OnlineMap)) :
    (pollLoop env send disabled cache fetches).2.length = fetches.length ∧
    pollLoop env send disabled cache [] = (cache, []) ∧
    (∀ fetch rest,
      pollLoop env send disabled cache (fetch :: rest) =
        ((pollLoop env send disabled (cycleBody env send disabled cache fetch).2 rest).1,
          (cycleBody env send disabled cache fetch).1 ::
            (pollLoop env send disabled (cycleBody env send disabled cache fetch).2 rest).2)) :=
  ⟨pollLoop_length env send disabled cache fetches, rfl, fun _ _ => rfl⟩

/-- C5: resolving a subscriber id that no lookup matches performs the four
lookups in order (channel by id, user by id, private-channel scan,
all-channels scan), issues exactly one store deletion for that id, returns
no subscriber, and — the deletion succeeding — propagates no exception
into the fan-out, which continues with the remaining subscribers. -/
theorem stale_subscriber_cleanup (env : Env) (send : Nat → SendOutcome)
    (disabled : Finset Nat) (st : Streamer) (subId : Nat) (rest : List Nat)
    (h1 : env.getChannel subId = false) (h2 : env.getUser subId = false)
    (h3 : env.privateChannels.contains subId = false)
    (h4 : env.allChannels.contains subId = false)
    (h5 : env.deleteRaises subId = false) (h6 : subId ∉ disabled) :
    getSubscriber env subId =
      ([Event.lookupChannel subId, Event.lookupUser subId, Event.scanPrivate subId,
        Event.scanAll subId, Event.deleteSubscriber subId], Except.ok none) ∧
    (getSubscriber env subId).1.countP (fun e => isDeleteOf subId e) = 1 ∧
    notifyLoop env send disabled st (subId :: rest) =
      ((getSubscriber env subId).1 ++ (notifyLoop env send disabled st rest).1,
        (notifyLoop env send disabled st rest).2) := by
  have hres : resolvable env subId = false := by
    unfold resolvable
    rw [h1, h2, h3, h4]
    rfl
  have hgs : getSubscriber env subId =
      ([Event.lookupChannel subId, Event.lookupUser subId, Event.scanPrivate subId,
        Event.scanAll subId, Event.deleteSubscriber subId], Except.ok none) := by
    rw [getSubscriber_neg env subId hres]
    simp [h5]
  refine ⟨hgs, ?_, ?_⟩
  · rw [hgs]
    simp [isDeleteOf, List.countP_cons]
  · rw [notifyLoop, if_neg h6, hgs]

theorem stale_subscriber_cleanup_witness :
    envStale.getChannel 9 = false ∧
      getSubscriber envStale 9 =
        ([Event.lookupChannel 9, Event.lookupUser 9, Event.scanPrivate 9,
          Event.scanAll 9, Event.deleteSubscriber 9], Except.ok none) ∧
      (getSubscriber envStale 9).1.countP (fun e => isDeleteOf 9 e) = 1 := by
  refine ⟨rfl, ?_, ?_⟩
  · exact (stale_subscriber_cleanup envStale sendOk ∅ streamerA 9 [] rfl rfl rfl rfl rfl
      (by decide)).1
  · exact (stale_subscriber_cleanup envStale sendOk ∅ streamerA 9 [] rfl rfl rfl rfl rfl
      (by decide)).2.1

/-- C6: delivery outcomes are isolated — the subscribers attempted during a
fan-out are the same whatever each send returns (success, permission
denial, transport failure, or any other exception), namely exactly the
resolvable non-disabled subscribers; the fan-out result is
outcome-independent; and the cache evolution of all subsequent cycles is
outcome-independent. -/
theorem delivery_failure_isolated (env : Env) (send send' : Nat → SendOutcome)
    (disabled : Finset Nat) (st : Streamer) (hNR : NoRaise env) :
    attemptIds (notifyStreamer env send disabled st).1 =
      attemptIds (notifyStreamer env send' disabled st).1 ∧
    attemptIds (notifyStreamer env send disabled st).1 =
      (env.subscribersOf st.db_id).filter
        (fun i => !decide (i ∈ disabled) && resolvable env i) ∧
    (notifyStreamer env send disabled st).2 = (notifyStreamer env send' disabled st).2 ∧
    (∀ cache fetches, (pollLoop env send disabled cache fetches).1 =
      (pollLoop env send' disabled cache fetches).1) :=
  ⟨attemptIds_notifyStreamer_send env send send' disabled st,
    attemptIds_notifyStreamer env send disabled st hNR,
    notifyStreamer_snd_send env send send' disabled st,
    fun cache fetches => pollLoop_cache_send env send send' disabled cache fetches⟩

theorem delivery_failure_isolated_witness :
    NoRaise envResolve ∧
      attemptIds (notifyStreamer envResolve sendFail6 ∅ streamerA).1 = [6, 7] := by
  refine ⟨⟨fun _ => rfl, fun _ => rfl⟩, ?_⟩
  rw [(delivery_failure_isolated envResolve sendFail6 sendOk ∅ streamerA
    ⟨fun _ => rfl, fun _ => rfl⟩).2.1]
  decide

/-- C10: the disabled check precedes resolution — for a disabled subscriber
id the fan-out performs no resolution lookup, no store access and no
delivery attempt, so a stale disabled subscriber is never deleted by the
self-healing cleanup. -/
theorem disabled_skips_resolution (env : Env) (send : Nat → SendOutcome)
    (disabled : Finset Nat) (st : Streamer) (subId : Nat) (hdis : subId ∈ disabled) :
    (∀ e ∈ (notifyStreamer env send disabled st).1,
      touchesSubscriber subId e = false) ∧
    (∀ e ∈ (notifyStreamer env send disabled st).1,
      isDeleteOf subId e = false) := by
  refine ⟨notifyStreamer_touches env send disabled st subId hdis, ?_⟩
  intro e he
  have ht := notifyStreamer_touches env send disabled st subId hdis e he
  cases e <;> simp_all [isDeleteOf, touchesSubscriber]

theorem disabled_skips_resolution_witness :
    (9 : Nat) ∈ ({9} : Finset Nat) ∧
      isDeleteOf 9 (Event.fetchSubscribers 1) = false := by
  refine ⟨by decide, ?_⟩
  exact (disabled_skips_resolution envStale sendOk {9} streamerA 9 (by decide)).2
    (Event.fetchSubscribers 1) (by decide)

end StreamNotificationBot
